import Mathlib

/-!
Verification development for the reactive hard-sphere particle simulator
(`physics_engine.py`, `server.py`, `runtime_config.py`).

The floating-point state of the engine is embedded over the reals.  Particle
arrays (`pos`, `vel`, `types`) are lists indexed by slot; NumPy in-place
mutation becomes functional update (`List.set`), and the stream of
`np.random.random()` draws becomes an explicit oracle `rng : ℕ → ℝ`
together with a cursor that each consumed draw advances.
-/

noncomputable section

open Real MeasureTheory

/-- A 3-vector, mirroring one row of a `(n, 3)` float64 array. -/
def V3 : Type := ℝ × ℝ × ℝ

/-- Componentwise sum of two 3-vectors. -/
def vadd3 (a b : V3) : V3 := (a.1 + b.1, a.2.1 + b.2.1, a.2.2 + b.2.2)

/-- Euclidean inner product of two 3-vectors. -/
def dot3 (a b : V3) : ℝ := a.1 * b.1 + a.2.1 * b.2.1 + a.2.2 * b.2.2

/-- Componentwise difference of two 3-vectors. -/
def vsub3 (a b : V3) : V3 := (a.1 - b.1, a.2.1 - b.2.1, a.2.2 - b.2.2)

/-- The zero 3-vector. -/
def v0 : V3 := ((0 : ℝ), (0 : ℝ), (0 : ℝ))

/-- Python's float modulo `a % b`: `a - b * ⌊a / b⌋` (sign of the divisor). -/
def pymod (a b : ℝ) : ℝ := a - b * ⌊a / b⌋

/-- `pos[i] += vel[i] * dt; pos[i] %= box_size`, per axis, for one slot
(`update_positions_numba`, physics_engine.py lines 47-52). -/
def driftWrap (p v : V3) (dt box_size : ℝ) : V3 :=
  (pymod (p.1 + v.1 * dt) box_size,
   pymod (p.2.1 + v.2.1 * dt) box_size,
   pymod (p.2.2 + v.2.2 * dt) box_size)

/-- `update_positions_numba`: drift every slot (active or not) and wrap it
into the periodic box. -/
def update_positions_numba (pos vel : List V3) (dt box_size : ℝ) : List V3 :=
  List.zipWith (fun p v => driftWrap p v dt box_size) pos vel

/-- Number of active slots (`type >= 0`), as computed by every
`types[i] >= 0` / `np.sum(types >= 0)` traversal in the source. -/
def countActive (types : List ℤ) : ℕ :=
  (types.filter (fun t => 0 ≤ t)).length

/-- `Σ |v_i|²` over active slots, the quantity `v_sq_sum` of
`apply_thermostat_numba` and `np.sum(vel[active_mask] ** 2)` of server.py. -/
def sumVsqActive : List ℤ → List V3 → ℝ
  | t :: ts, v :: vs =>
      (if 0 ≤ t then v.1 ^ 2 + v.2.1 ^ 2 + v.2.2 ^ 2 else 0) + sumVsqActive ts vs
  | _, _ => 0

/-- Multiply the velocity of every active slot by `a`
(`vel[active_mask] *= scale` / the scaling loop of the thermostat). -/
def scaleActive : List ℤ → List V3 → ℝ → List V3
  | t :: ts, v :: vs, a =>
      (if 0 ≤ t then (a * v.1, a * v.2.1, a * v.2.2) else v) :: scaleActive ts vs a
  | _, vs, _ => vs

/-- Instantaneous kinetic temperature of the active subset,
`T = m·Σ|v|² / (3·N_act·k_B)` as in `apply_thermostat_numba` and
`rescale_velocities_to_target_temperature`. -/
def kineticTempOf (types : List ℤ) (vel : List V3) (mass boltzmann_k : ℝ) : ℝ :=
  mass * sumVsqActive types vel / (3 * (countActive types : ℝ) * boltzmann_k)

/-- `apply_thermostat_numba` (physics_engine.py lines 55-98): measure the
kinetic temperature of the active subset and, when enabled and positive,
rescale active velocities by `√(T_target/T_inst)` clamped to `[0.99, 1.01]`. -/
def apply_thermostat_numba (vel : List V3) (types : List ℤ)
    (target_temp mass boltzmann_k : ℝ) (thermostat_enabled : Bool) : List V3 :=
  let n_active := countActive types
  if n_active = 0 then vel
  else
    let current_temp := mass * sumVsqActive types vel / (3 * (n_active : ℝ) * boltzmann_k)
    if thermostat_enabled = true ∧ 0 < current_temp then
      let scale := Real.sqrt (target_temp / current_temp)
      let scale := if scale < 0.99 then 0.99 else if scale > 1.01 then 1.01 else scale
      scaleActive types vel scale
    else vel

/-- One row of the flat one-body (decay) reaction table
`[reactant, p0, p1, ea, frequency_factor, q_val]`. -/
structure Rxn1 where
  reactant : ℤ
  p0 : ℤ
  p1 : ℤ
  ea : ℝ
  freq : ℝ
  q : ℝ

/-- One row of the flat two-body reaction table
`[r0, r1, p0, p1, ea_forward, ea_reverse]`. -/
structure Rxn2 where
  r0 : ℤ
  r1 : ℤ
  p0 : ℤ
  p1 : ℤ
  eaF : ℝ
  eaR : ℝ

/-- The state of `PhysicsEngineAdapter` (server.py), with the configuration
fields it reads through `self.config` flattened in, plus the cursor `rk`
into the random stream. -/
structure EngineState where
  pos : List V3
  vel : List V3
  types : List ℤ
  simTime : ℝ
  dt : ℝ
  boxSize : ℝ
  mass : ℝ
  boltzmann_k : ℝ
  temperature : ℝ
  useThermostat : Bool
  reactions2 : List Rxn2
  reactions1 : List Rxn1
  radii : List ℝ
  cellDivs : ℕ
  activeCount : ℕ
  rk : ℕ

/-- `PhysicsEngineAdapter.rescale_velocities_to_target_temperature`
(server.py lines 265-280): one immediate velocity rescale toward the target
temperature, with the factor clamped by `np.clip(scale, 0.1, 10.0)`. -/
def EngineState.rescale_velocities_to_target_temperature (s : EngineState) : EngineState :=
  let n_active := countActive s.types
  if n_active = 0 then s
  else
    let current_temp :=
      s.mass * sumVsqActive s.types s.vel / (3 * (n_active : ℝ) * s.boltzmann_k)
    if current_temp ≤ 0 then s
    else
      let scale := Real.sqrt (s.temperature / current_temp)
      let scale := min 10 (max 0.1 scale)
      { s with vel := scaleActive s.types s.vel scale }

/-! ### Basic lemmas on the helpers -/

theorem pymod_nonneg_lt (a L : ℝ) (hL : 0 < L) : 0 ≤ pymod a L ∧ pymod a L < L := by
  have hfr : pymod a L = L * Int.fract (a / L) := by
    unfold pymod Int.fract
    field_simp
  constructor
  · rw [hfr]
    exact mul_nonneg hL.le (Int.fract_nonneg _)
  · rw [hfr]
    calc L * Int.fract (a / L) < L * 1 :=
          (mul_lt_mul_left hL).mpr (Int.fract_lt_one _)
    _ = L := mul_one L

theorem mem_update_positions (pos vel : List V3) (dt L : ℝ) (q : V3)
    (hq : q ∈ update_positions_numba pos vel dt L) :
    ∃ p v, q = driftWrap p v dt L := by
  induction pos generalizing vel with
  | nil => simp [update_positions_numba] at hq
  | cons p ps ih =>
    cases vel with
    | nil => simp [update_positions_numba] at hq
    | cons v vs =>
      simp only [update_positions_numba, List.zipWith_cons_cons, List.mem_cons] at hq
      rcases hq with h | h
      · exact ⟨p, v, h⟩
      · exact ih vs h

theorem sumVsqActive_scale (ts : List ℤ) (vs : List V3) (a : ℝ) :
    sumVsqActive ts (scaleActive ts vs a) = a ^ 2 * sumVsqActive ts vs := by
  induction ts generalizing vs with
  | nil => simp [sumVsqActive, scaleActive]
  | cons t ts ih =>
    cases vs with
    | nil =>
      simp [sumVsqActive, scaleActive]
    | cons v vs =>
      simp only [scaleActive, sumVsqActive]
      by_cases h : (0 : ℤ) ≤ t
      · simp only [if_pos h, ih]
        ring
      · simp only [if_neg h, ih]
        ring

/-! ### C9 — positions lie in `[0, L)` after the drift substep -/

/-- C9: after `update_positions_numba` (`pos ← pos + vel·Δt` then
`pos ← pos mod L` per axis), every slot's position satisfies
`0 ≤ pos[i][d] < L` on each axis, whenever `L > 0`. -/
theorem C9_drift_in_box (pos vel : List V3) (dt L : ℝ) (hL : 0 < L) (q : V3)
    (hq : q ∈ update_positions_numba pos vel dt L) :
    (0 ≤ q.1 ∧ q.1 < L) ∧ (0 ≤ q.2.1 ∧ q.2.1 < L) ∧ (0 ≤ q.2.2 ∧ q.2.2 < L) := by
  obtain ⟨p, v, rfl⟩ := mem_update_positions pos vel dt L q hq
  unfold driftWrap
  refine ⟨?_, ?_, ?_⟩
  · exact pymod_nonneg_lt _ _ hL
  · exact pymod_nonneg_lt _ _ hL
  · exact pymod_nonneg_lt _ _ hL

/-- Witness for C9 at a concrete state: box `L = 2`, one slot at
`(3, 0, -1)` with zero velocity, wrapped to `(1, 0, 1)`. -/
theorem C9_drift_in_box_witness :
    (0 : ℝ) < 2 ∧
      ((0 ≤ (((1 : ℝ), (0 : ℝ), (1 : ℝ)) : V3).1 ∧ (((1 : ℝ), (0 : ℝ), (1 : ℝ)) : V3).1 < 2) ∧
       (0 ≤ (((1 : ℝ), (0 : ℝ), (1 : ℝ)) : V3).2.1 ∧ (((1 : ℝ), (0 : ℝ), (1 : ℝ)) : V3).2.1 < 2) ∧
       (0 ≤ (((1 : ℝ), (0 : ℝ), (1 : ℝ)) : V3).2.2 ∧ (((1 : ℝ), (0 : ℝ), (1 : ℝ)) : V3).2.2 < 2)) := by
  refine ⟨by norm_num, ?_⟩
  refine C9_drift_in_box [((3 : ℝ), (0 : ℝ), (-1 : ℝ))] [v0] 1 2 (by norm_num)
    (((1 : ℝ), (0 : ℝ), (1 : ℝ)) : V3) ?_
  have h3 : pymod ((3 : ℝ) + 0 * 1) 2 = 1 := by
    unfold pymod
    norm_num
  have h0 : pymod ((0 : ℝ) + 0 * 1) 2 = 0 := by
    unfold pymod
    norm_num
  have hm1 : pymod ((-1 : ℝ) + 0 * 1) 2 = 1 := by
    unfold pymod
    norm_num
  simp only [update_positions_numba, v0, List.zipWith_cons_cons, List.zipWith_nil_right,
    driftWrap, h3, h0, hm1, List.mem_singleton]

/-! ### C4 — the temperature retarget operation -/

/-- C4 (corrected): when the unclamped factor `√(T_target/T_inst)` lies inside
the safety clamp `[0.1, 10]`, the retarget operation rescales once and the
measured kinetic temperature of the active subset afterwards equals the
target exactly. -/
theorem C4_retarget_exact_in_range (s : EngineState)
    (hn : 1 ≤ countActive s.types)
    (ht : 0 < kineticTempOf s.types s.vel s.mass s.boltzmann_k)
    (hlo : (0.1 : ℝ) ≤
      Real.sqrt (s.temperature / kineticTempOf s.types s.vel s.mass s.boltzmann_k))
    (hhi : Real.sqrt (s.temperature / kineticTempOf s.types s.vel s.mass s.boltzmann_k) ≤ 10) :
    kineticTempOf s.types (s.rescale_velocities_to_target_temperature).vel
        s.mass s.boltzmann_k = s.temperature := by
  have hne : countActive s.types ≠ 0 := by omega
  have htc : kineticTempOf s.types s.vel s.mass s.boltzmann_k =
      s.mass * sumVsqActive s.types s.vel / (3 * (countActive s.types : ℝ) * s.boltzmann_k) := rfl
  unfold EngineState.rescale_velocities_to_target_temperature
  rw [if_neg hne, if_neg (by rw [← htc]; exact not_le.mpr ht)]
  have hratio : 0 < s.temperature / kineticTempOf s.types s.vel s.mass s.boltzmann_k := by
    have hs : 0 < Real.sqrt (s.temperature / kineticTempOf s.types s.vel s.mass s.boltzmann_k) :=
      lt_of_lt_of_le (by norm_num) hlo
    exact Real.sqrt_pos.mp hs
  have hclamp :
      min 10 (max 0.1 (Real.sqrt (s.temperature /
        (s.mass * sumVsqActive s.types s.vel /
          (3 * (countActive s.types : ℝ) * s.boltzmann_k))))) =
      Real.sqrt (s.temperature / kineticTempOf s.types s.vel s.mass s.boltzmann_k) := by
    rw [← htc, max_eq_right hlo, min_eq_right hhi]
  simp only [hclamp]
  unfold kineticTempOf
  rw [sumVsqActive_scale]
  rw [← htc, Real.sq_sqrt hratio.le]
  have : s.mass * (s.temperature / kineticTempOf s.types s.vel s.mass s.boltzmann_k *
      sumVsqActive s.types s.vel) / (3 * (countActive s.types : ℝ) * s.boltzmann_k) =
      s.temperature / kineticTempOf s.types s.vel s.mass s.boltzmann_k *
        (s.mass * sumVsqActive s.types s.vel /
          (3 * (countActive s.types : ℝ) * s.boltzmann_k)) := by
    ring
  rw [this, ← htc, div_mul_cancel₀ _ ht.ne']

/-- Concrete state for exercising the retarget operation: one active
particle with velocity `(1,1,1)`, `m = k_B = 1`, measured temperature `1`. -/
def retargetEg (target : ℝ) : EngineState :=
  { pos := [v0], vel := [((1 : ℝ), (1 : ℝ), (1 : ℝ))], types := [(0 : ℤ)],
    simTime := 0, dt := 1/500, boxSize := 10, mass := 1, boltzmann_k := 1,
    temperature := target, useThermostat := true, reactions2 := [], reactions1 := [],
    radii := [0.15], cellDivs := 1, activeCount := 1, rk := 0 }

theorem retargetEg_temp (target : ℝ) :
    kineticTempOf (retargetEg target).types (retargetEg target).vel 1 1 = 1 := by
  simp only [retargetEg, kineticTempOf, sumVsqActive, countActive]
  norm_num [List.filter]

/-- Witness for C4: target `4` from measured temperature `1`
(`scale = 2 ∈ [0.1, 10]`), landing exactly on `4`. -/
theorem C4_retarget_witness :
    1 ≤ countActive (retargetEg 4).types ∧
    0 < kineticTempOf (retargetEg 4).types (retargetEg 4).vel
        (retargetEg 4).mass (retargetEg 4).boltzmann_k ∧
    (0.1 : ℝ) ≤ Real.sqrt ((retargetEg 4).temperature /
        kineticTempOf (retargetEg 4).types (retargetEg 4).vel
          (retargetEg 4).mass (retargetEg 4).boltzmann_k) ∧
    Real.sqrt ((retargetEg 4).temperature /
        kineticTempOf (retargetEg 4).types (retargetEg 4).vel
          (retargetEg 4).mass (retargetEg 4).boltzmann_k) ≤ 10 ∧
    kineticTempOf (retargetEg 4).types
        ((retargetEg 4).rescale_velocities_to_target_temperature).vel
        (retargetEg 4).mass (retargetEg 4).boltzmann_k = (retargetEg 4).temperature := by
  have hm : (retargetEg 4).mass = 1 := rfl
  have hk : (retargetEg 4).boltzmann_k = 1 := rfl
  have htemp : (retargetEg 4).temperature = 4 := rfl
  have h1 : kineticTempOf (retargetEg 4).types (retargetEg 4).vel
      (retargetEg 4).mass (retargetEg 4).boltzmann_k = 1 := by
    rw [hm, hk]; exact retargetEg_temp 4
  have hsq : Real.sqrt ((retargetEg 4).temperature /
      kineticTempOf (retargetEg 4).types (retargetEg 4).vel
        (retargetEg 4).mass (retargetEg 4).boltzmann_k) = 2 := by
    rw [h1, htemp]
    rw [show (4 : ℝ) / 1 = 2 ^ 2 by norm_num, Real.sqrt_sq (by norm_num)]
  refine ⟨?_, ?_, ?_, ?_, ?_⟩
  · simp [retargetEg, countActive, List.filter]
  · rw [h1]; norm_num
  · rw [hsq]; norm_num
  · rw [hsq]; norm_num
  · exact C4_retarget_exact_in_range (retargetEg 4)
      (by simp [retargetEg, countActive, List.filter])
      (by rw [h1]; norm_num) (by rw [hsq]; norm_num) (by rw [hsq]; norm_num)

/-- Counterexample to C4 as stated: with measured temperature `1` and target
`10000` the unclamped factor would be `100`, the clamp cuts it to `10`, and
the resulting temperature is `100`, not the target. -/
theorem C4_retarget_clamped_counter :
    kineticTempOf (retargetEg 10000).types
        ((retargetEg 10000).rescale_velocities_to_target_temperature).vel
        (retargetEg 10000).mass (retargetEg 10000).boltzmann_k ≠
      (retargetEg 10000).temperature := by
  have h1 : kineticTempOf (retargetEg 10000).types (retargetEg 10000).vel 1 1 = 1 :=
    retargetEg_temp 10000
  have hsq : Real.sqrt ((10000 : ℝ) / 1) = 100 := by
    rw [show (10000 : ℝ) / 1 = 100 ^ 2 by norm_num, Real.sqrt_sq (by norm_num)]
  have hstep : (retargetEg 10000).rescale_velocities_to_target_temperature =
      { retargetEg 10000 with
          vel := scaleActive (retargetEg 10000).types (retargetEg 10000).vel 10 } := by
    unfold EngineState.rescale_velocities_to_target_temperature
    rw [if_neg (by simp [retargetEg, countActive, List.filter])]
    have hct : (retargetEg 10000).mass *
        sumVsqActive (retargetEg 10000).types (retargetEg 10000).vel /
        (3 * ((countActive (retargetEg 10000).types : ℕ) : ℝ) *
          (retargetEg 10000).boltzmann_k) = 1 := by
      simp only [retargetEg, sumVsqActive, countActive]
      norm_num [List.filter]
    rw [if_neg (by rw [hct]; norm_num)]
    rw [hct]
    have hscale : min 10 (max 0.1 (Real.sqrt ((retargetEg 10000).temperature / 1))) = (10 : ℝ) := by
      rw [show (retargetEg 10000).temperature = (10000 : ℝ) from rfl, hsq]
      norm_num
    simp only [hscale]
  rw [hstep]
  show kineticTempOf (retargetEg 10000).types
      (scaleActive (retargetEg 10000).types (retargetEg 10000).vel 10) 1 1 ≠
      (retargetEg 10000).temperature
  unfold kineticTempOf
  rw [sumVsqActive_scale]
  simp only [retargetEg, sumVsqActive, countActive]
  norm_num [List.filter]

/-! ### Runtime configuration (`runtime_config.py`) -/

/-- `SubstanceConfig`: one declared species. -/
structure SubstanceConfig where
  id : String
  type_id : ℤ
  color_hue : ℤ
  radius : ℝ
  initial_count : ℤ

/-- `ReactionConfig`: one user reaction, with expanded reactant/product
type lists and the dataclass defaults `ea = 30.0`, `frequency_factor = 1.0`. -/
structure ReactionConfig where
  equation : String
  reactant_types : List ℤ
  product_types : List ℤ
  ea_forward : ℝ
  ea_reverse : ℝ
  frequency_factor : ℝ

/-- `ReactionConfig.is_valid`: 1-2 reactants, 1-2 products, nonnegative
activation energies. -/
def ReactionConfig.is_valid (r : ReactionConfig) : Prop :=
  (1 ≤ r.reactant_types.length ∧ r.reactant_types.length ≤ 2) ∧
  (1 ≤ r.product_types.length ∧ r.product_types.length ≤ 2) ∧
  0 ≤ r.ea_forward ∧ 0 ≤ r.ea_reverse

instance (r : ReactionConfig) : Decidable r.is_valid := by
  unfold ReactionConfig.is_valid
  infer_instance

/-- The id → type lookup `{s.id.upper(): s.type_id for s in substances}`;
with duplicate keys the last entry wins, hence the reversed search. -/
def lookupType (subs : List SubstanceConfig) (name : String) : Option ℤ :=
  (subs.reverse.find? (fun s => s.id.toUpper == name)).map (fun s => s.type_id)

/-- Numeric value of a string of decimal digits (the `(\d*)` coefficient). -/
def digitsVal (cs : List Char) : ℕ :=
  cs.foldl (fun n c => 10 * n + (c.toNat - 48)) 0

/-- Parse the `+`-separated terms of one side of an equation.  Each term must
match `^(\d*)([A-Z]+)$`; the optional coefficient replicates the looked-up
type id (`result.extend([id_to_type[name]] * coeff)`). -/
def parseTerms (subs : List SubstanceConfig) : List String → Option (List ℤ)
  | [] => some []
  | term :: rest =>
    if term = "" then none
    else
      let cs := term.toList
      let digits := cs.takeWhile Char.isDigit
      let letters := cs.dropWhile Char.isDigit
      if letters = [] then none
      else if letters.all (fun c => decide ('A' ≤ c) && decide (c ≤ 'Z')) then
        let coeff := if digits = [] then 1 else digitsVal digits
        match lookupType subs (String.mk letters), parseTerms subs rest with
        | some t, some tl => some (List.replicate coeff t ++ tl)
        | _, _ => none
      else none

/-- `parse_side` of `parse_reaction_equation`: an empty side is rejected,
otherwise the side splits on `+` and each term is parsed. -/
def parse_side (subs : List SubstanceConfig) (sideStr : String) : Option (List ℤ) :=
  if sideStr = "" then none else parseTerms subs (sideStr.splitOn "+")

/-- `parse_reaction_equation`: strip spaces, normalize the arrow symbols to
`=`, uppercase, split into exactly two sides, parse both, and validate. -/
def parse_reaction_equation (equation : String) (subs : List SubstanceConfig) :
    Option ReactionConfig :=
  let eq := (((((equation.replace " " "").replace "→" "=").replace "⇌"
      "=").replace "->" "=")).toUpper
  if eq.contains '=' = false then none
  else
    match eq.splitOn "=" with
    | [left, right] =>
      match parse_side subs left, parse_side subs right with
      | some rt, some pt =>
        let config : ReactionConfig :=
          { equation := equation, reactant_types := rt, product_types := pt,
            ea_forward := 30.0, ea_reverse := 30.0, frequency_factor := 1.0 }
        if config.is_valid then some config else none
      | _, _ => none
    | _ => none

/-- `RuntimeConfig`: the mutable simulation configuration. -/
structure RuntimeConfig where
  temperature : ℝ
  use_thermostat : Bool
  substances : List SubstanceConfig
  reactions : List ReactionConfig
  properties_locked : Bool
  box_size : ℝ
  box_size_min : ℝ
  box_size_max : ℝ
  mass : ℝ
  boltzmann_k : ℝ
  dt : ℝ
  slice_thickness : ℝ
  max_particles : ℕ
  MAX_SUBSTANCES : ℕ
  MAX_REACTIONS : ℕ

/-- One entry of the incoming `data["substances"]` list: a dict whose keys
may be absent (`sd.get(key, default)`). -/
structure SubstanceDict where
  id : Option String
  colorHue : Option ℤ
  radius : Option ℝ
  initialCount : Option ℤ

/-- One entry of the incoming `data["reactions"]` list. -/
structure ReactionDict where
  equation : Option String
  eaForward : Option ℝ
  eaReverse : Option ℝ
  frequencyFactor : Option ℝ

/-- The incoming `data` dict of `update_from_dict`: each recognized key may
be present or absent. -/
structure ConfigUpdate where
  temperature : Option ℝ
  useThermostat : Option Bool
  substances : Option (List SubstanceDict)
  reactions : Option (List ReactionDict)
  sliceThickness : Option ℝ
  boxSize : Option ℝ

/-- Rebuild `self.substances` from `data["substances"][:MAX_SUBSTANCES]`,
with positional type ids and the `sd.get` defaults. -/
def applySubstances (l : List SubstanceDict) (maxS : ℕ) : List SubstanceConfig :=
  (l.take maxS).enum.map fun p =>
    { id := p.2.id.getD (String.singleton (Char.ofNat (65 + p.1))),
      type_id := (p.1 : ℤ),
      color_hue := p.2.colorHue.getD ((p.1 : ℤ) * 60),
      radius := p.2.radius.getD 0.15,
      initial_count := p.2.initialCount.getD 0 }

/-- Rebuild `self.reactions` from `data["reactions"][:MAX_REACTIONS]`: each
entry carrying an equation is parsed against the current substances, and a
successful parse takes the dict's activation energies (default `30.0`) and
frequency factor (default `1.0`). -/
def applyReactions (c : RuntimeConfig) (l : List ReactionDict) : List ReactionConfig :=
  (l.take c.MAX_REACTIONS).filterMap fun rd =>
    match rd.equation with
    | none => none
    | some eq =>
      (parse_reaction_equation eq c.substances).map fun parsed =>
        { parsed with
            ea_forward := rd.eaForward.getD 30.0,
            ea_reverse := rd.eaReverse.getD 30.0,
            frequency_factor := rd.frequencyFactor.getD 1.0 }

/-- `RuntimeConfig.update_from_dict` (runtime_config.py lines 428-468):
temperature and thermostat updates are unconditional; substances and
reactions rebuild only while unlocked; `sliceThickness` is applied
unconditionally; a `boxSize` update (unlocked only) clamps the new size into
`[box_size_min, box_size_max]` and then forces
`slice_thickness = box_size * 0.25`. -/
def RuntimeConfig.update_from_dict (c : RuntimeConfig) (data : ConfigUpdate) : RuntimeConfig :=
  let c1 := match data.temperature with
    | some t => { c with temperature := t }
    | none => c
  let c2 := match data.useThermostat with
    | some b => { c1 with use_thermostat := b }
    | none => c1
  let c3 :=
    if c2.properties_locked then c2
    else
      let cs := match data.substances with
        | some l => { c2 with substances := applySubstances l c2.MAX_SUBSTANCES }
        | none => c2
      match data.reactions with
      | some l => { cs with reactions := applyReactions cs l }
      | none => cs
  let c4 := match data.sliceThickness with
    | some v => { c3 with slice_thickness := v }
    | none => c3
  if c4.properties_locked then c4
  else
    match data.boxSize with
    | some b =>
      let new_box := max c4.box_size_min (min c4.box_size_max b)
      { c4 with box_size := new_box, slice_thickness := new_box * 0.25 }
    | none => c4

/-! ### C5 — which fields are mutable while properties are locked -/

/-- C5 (corrected): while `properties_locked` is true, `update_from_dict`
leaves the substances, reactions, box size, mass, dt and pool capacity
unchanged for every input dictionary; besides `temperature` and
`useThermostat`, however, `sliceThickness` is also applied (its assignment
sits outside the lock guard). -/
theorem C5_locked_only_temp_thermostat_slice (c : RuntimeConfig) (d : ConfigUpdate)
    (h : c.properties_locked = true) :
    (c.update_from_dict d).substances = c.substances ∧
    (c.update_from_dict d).reactions = c.reactions ∧
    (c.update_from_dict d).box_size = c.box_size ∧
    (c.update_from_dict d).mass = c.mass ∧
    (c.update_from_dict d).dt = c.dt ∧
    (c.update_from_dict d).max_particles = c.max_particles := by
  unfold RuntimeConfig.update_from_dict
  cases d.temperature <;> cases d.useThermostat <;> cases d.sliceThickness <;>
    simp [h]

/-- The default `RuntimeConfig` (dataclass defaults plus
`_init_default_substances` / `_init_default_reactions`), with properties
locked as after `handle_start`. -/
def lockedCfg : RuntimeConfig :=
  { temperature := 300, use_thermostat := true,
    substances := [⟨"A", 0, 0, 0.15, 5000⟩, ⟨"B", 1, 210, 0.15, 0⟩],
    reactions := [⟨"2A=B", [0, 0], [1], 20.0, 30.0, 1.0⟩],
    properties_locked := true,
    box_size := 17.5, box_size_min := 10.0, box_size_max := 40.0,
    mass := 1.0, boltzmann_k := 0.1, dt := 0.002, slice_thickness := 4.375,
    max_particles := 20000, MAX_SUBSTANCES := 5, MAX_REACTIONS := 3 }

/-- An update dict carrying only `sliceThickness`. -/
def sliceOnly : ConfigUpdate :=
  { temperature := none, useThermostat := none, substances := none,
    reactions := none, sliceThickness := some 9, boxSize := none }

/-- Counterexample to C5 as stated: with properties locked, a dictionary
holding only `sliceThickness` still changes `slice_thickness`. -/
theorem C5_locked_slice_mutates_counter :
    (lockedCfg.update_from_dict sliceOnly).slice_thickness ≠ lockedCfg.slice_thickness := by
  have : (lockedCfg.update_from_dict sliceOnly).slice_thickness = 9 := by
    unfold RuntimeConfig.update_from_dict lockedCfg sliceOnly
    norm_num
  rw [this]
  show (9 : ℝ) ≠ lockedCfg.slice_thickness
  unfold lockedCfg
  norm_num

/-- Witness for C5 at the concrete locked configuration. -/
theorem C5_locked_witness :
    lockedCfg.properties_locked = true ∧
    ((lockedCfg.update_from_dict sliceOnly).substances = lockedCfg.substances ∧
     (lockedCfg.update_from_dict sliceOnly).reactions = lockedCfg.reactions ∧
     (lockedCfg.update_from_dict sliceOnly).box_size = lockedCfg.box_size ∧
     (lockedCfg.update_from_dict sliceOnly).mass = lockedCfg.mass ∧
     (lockedCfg.update_from_dict sliceOnly).dt = lockedCfg.dt ∧
     (lockedCfg.update_from_dict sliceOnly).max_particles = lockedCfg.max_particles) :=
  ⟨rfl, C5_locked_only_temp_thermostat_slice lockedCfg sliceOnly rfl⟩

/-! ### C10 — boxSize updates while unlocked -/

/-- C10: while unlocked, a `boxSize` update clamps the stored size into
`[box_size_min, box_size_max]` and then sets `slice_thickness` to one
quarter of the clamped size, overriding any `sliceThickness` in the same
dictionary. -/
theorem C10_boxsize_clamp_slice (c : RuntimeConfig) (d : ConfigUpdate) (b : ℝ)
    (h : c.properties_locked = false) (hb : d.boxSize = some b) :
    (c.update_from_dict d).box_size = max c.box_size_min (min c.box_size_max b) ∧
    (c.update_from_dict d).slice_thickness =
      max c.box_size_min (min c.box_size_max b) * 0.25 := by
  unfold RuntimeConfig.update_from_dict
  cases d.temperature <;> cases d.useThermostat <;> cases d.substances <;>
    cases d.reactions <;> cases d.sliceThickness <;> simp [h, hb]

/-- The default configuration before `handle_start`, properties unlocked. -/
def openCfg : RuntimeConfig :=
  { lockedCfg with properties_locked := false }

/-- An update dict carrying both `boxSize = 100` and `sliceThickness = 3`. -/
def boxAndSlice : ConfigUpdate :=
  { temperature := none, useThermostat := none, substances := none,
    reactions := none, sliceThickness := some 3, boxSize := some 100 }

/-- Witness for C10: `boxSize = 100` is clamped to `40`, and
`slice_thickness` becomes `10` regardless of the `sliceThickness = 3` that
arrived in the same update. -/
theorem C10_boxsize_clamp_slice_witness :
    openCfg.properties_locked = false ∧ boxAndSlice.boxSize = some 100 ∧
    ((openCfg.update_from_dict boxAndSlice).box_size =
        max openCfg.box_size_min (min openCfg.box_size_max 100) ∧
     (openCfg.update_from_dict boxAndSlice).slice_thickness =
        max openCfg.box_size_min (min openCfg.box_size_max 100) * 0.25) :=
  ⟨rfl, rfl, C10_boxsize_clamp_slice openCfg boxAndSlice 100 rfl rfl⟩

/-! ### Decay engine (`process_1body_reactions`, physics_engine.py 101-216) -/

/-- `find_inactive_slot`: linear scan for the first slot with `type = -1`,
`none` mirroring the `-1` sentinel when the pool is full. -/
def find_inactive_slot : List ℤ → Option ℕ
  | [] => none
  | t :: rest => if t = -1 then some 0 else (find_inactive_slot rest).map (fun k => k + 1)

/-- The separation unit vector built by the decay engine from polar angle
`phi` and azimuth `theta`:
`(sin φ cos θ, sin φ sin θ, cos φ)` (physics_engine.py lines 186-188). -/
def decayDir (theta phi : ℝ) : V3 :=
  (Real.sin phi * Real.cos theta, Real.sin phi * Real.sin theta, Real.cos phi)

/-- The decay direction as a function of the two uniform variates:
`theta = u·2π`, `phi = v·π` (physics_engine.py lines 184-185). -/
def sampleDir (u v : ℝ) : V3 :=
  decayDir (u * (2 * Real.pi)) (v * Real.pi)

/-- Modelled from the spec (§4.5 "Isotropic direction sampling"), for
comparison only: `cos θ` uniform in `[−1, 1]` (via `c = 2v − 1`) and azimuth
uniform in `[0, 2π)`. -/
def specIsotropicDir (u v : ℝ) : V3 :=
  (Real.sqrt (1 - (2 * v - 1) ^ 2) * Real.cos (2 * Real.pi * u),
   Real.sqrt (1 - (2 * v - 1) ^ 2) * Real.sin (2 * Real.pi * u),
   2 * v - 1)

/-- The decay pass's mutable state: the three particle arrays plus the
random-stream cursor. -/
structure DState where
  types : List ℤ
  pos : List V3
  vel : List V3
  rk : ℕ

/-- The inner reaction-row loop of `process_1body_reactions` for particle
`i`: Arrhenius probability test per matching row, energy-budget gate,
momentum-conserving split, second-fragment emission into a recycled slot
when one exists, and `break` after a fired decay. -/
def decayRowsGo (rng : ℕ → ℝ) (temperature boltzmann_k dt mass : ℝ) (i : ℕ) :
    List Rxn1 → DState → DState
  | [], st => st
  | r :: rest, st =>
    if st.types.getD i 0 = r.reactant then
      let k := r.freq * Real.exp (-r.ea / (boltzmann_k * temperature))
      let prob := k * dt
      let prob := if prob > 1 then 1 else prob
      let u := rng st.rk
      let st1 : DState := { st with rk := st.rk + 1 }
      if u < prob then
        let v := st1.vel.getD i v0
        let v_sq := v.1 ^ 2 + v.2.1 ^ 2 + v.2.2 ^ 2
        let energy_budget := r.q / mass + 0.25 * v_sq
        if energy_budget < 0 then
          decayRowsGo rng temperature boltzmann_k dt mass i rest st1
        else
          let delta_v := Real.sqrt energy_budget
          let d := sampleDir (rng st1.rk) (rng (st1.rk + 1))
          let st2 : DState := { st1 with rk := st1.rk + 2 }
          let vbase : V3 := (v.1 * 0.5, v.2.1 * 0.5, v.2.2 * 0.5)
          let types1 := st2.types.set i r.p0
          let vel1 := st2.vel.set i
            (vbase.1 + d.1 * delta_v, vbase.2.1 + d.2.1 * delta_v,
             vbase.2.2 + d.2.2 * delta_v)
          if 0 ≤ r.p1 then
            match find_inactive_slot types1 with
            | some slot =>
              { st2 with
                  types := types1.set slot r.p1,
                  pos := st2.pos.set slot (st2.pos.getD i v0),
                  vel := vel1.set slot
                    (vbase.1 - d.1 * delta_v, vbase.2.1 - d.2.1 * delta_v,
                     vbase.2.2 - d.2.2 * delta_v) }
            | none => { st2 with types := types1, vel := vel1 }
          else { st2 with types := types1, vel := vel1 }
      else decayRowsGo rng temperature boltzmann_k dt mass i rest st1
    else decayRowsGo rng temperature boltzmann_k dt mass i rest st

/-- `process_1body_reactions`: for every slot of the pool in index order,
skip inactive slots and run the reaction-row loop. -/
def process_1body_reactions (rng : ℕ → ℝ) (reactions_1body : List Rxn1)
    (temperature boltzmann_k dt box_size mass : ℝ) (st : DState) : DState :=
  if reactions_1body.length = 0 then st
  else
    (List.range st.types.length).foldl
      (fun st i =>
        if st.types.getD i 0 < 0 then st
        else decayRowsGo rng temperature boltzmann_k dt mass i reactions_1body st)
      st

/-! ### C1 — a two-product decay with a full pool is not aborted -/

/-- A pool of one slot, fully occupied by a particle of type 5 at rest. -/
def c1State : DState := { types := [(5 : ℤ)], pos := [v0], vel := [v0], rk := 0 }

/-- A two-product decay row `5 → 6 + 7` with `Ea = 0`, `A·dt ≥ 1`, `Q = 1`:
it fires with probability one. -/
def c1Rxn : Rxn1 := { reactant := 5, p0 := 6, p1 := 7, ea := 0, freq := 1000, q := 1 }

/-- C1 (code evidence): firing the two-product decay `5 → 6 + 7` on a full
pool (no inactive slot anywhere) still rewrites the parent's type to `p0`
and re-kicks its velocity; only the second fragment is dropped.  The decay
is not aborted and the parent state is not preserved. -/
theorem C1_pool_full_not_aborted :
    find_inactive_slot c1State.types = none ∧
    (process_1body_reactions (fun _ => 0) [c1Rxn] 1 1 1 10 1 c1State).types = [(6 : ℤ)] ∧
    (process_1body_reactions (fun _ => 0) [c1Rxn] 1 1 1 10 1 c1State).vel =
      [(((0 : ℝ), (0 : ℝ), (1 : ℝ)) : V3)] ∧
    (process_1body_reactions (fun _ => 0) [c1Rxn] 1 1 1 10 1 c1State).types ≠ c1State.types := by
  have hslot : find_inactive_slot c1State.types = none := by
    simp [c1State, find_inactive_slot]
  have hrun : process_1body_reactions (fun _ => 0) [c1Rxn] 1 1 1 10 1 c1State =
      { types := [(6 : ℤ)], pos := [v0], vel := [(((0 : ℝ), (0 : ℝ), (1 : ℝ)) : V3)], rk := 3 } := by
    simp only [process_1body_reactions, c1State, c1Rxn, List.length_cons, List.length_nil,
      List.range_succ, List.range_zero, List.foldl_cons, List.foldl_nil, List.nil_append,
      List.getD, decayRowsGo, sampleDir, decayDir, find_inactive_slot, v0]
    norm_num [Real.exp_zero, Real.sqrt_one, Real.sin_zero, Real.cos_zero, find_inactive_slot]
  refine ⟨hslot, ?_, ?_, ?_⟩
  · rw [hrun]
  · rw [hrun]
  · rw [hrun]
    simp [c1State]

/-! ### C2 — the decay direction is not sampled isotropically -/

/-- C2 (code evidence): push the uniform variate `v` through the code's
sampler and through the spec's `cos θ`-uniform sampler and compare the
distribution of the z-component at the threshold `1/2`: the code's polar
angle `φ = v·π` is uniform, giving probability `1/3`, while an isotropic
direction gives `1/4`.  The code's sampler is the "θ uniform, φ uniform"
pattern the spec forbids, not isotropic. -/
theorem C2_direction_sampling_biased :
    volume {v : ℝ | v ∈ Set.Ico (0 : ℝ) 1 ∧ 1 / 2 < (sampleDir 0 v).2.2} =
      ENNReal.ofReal (1 / 3) ∧
    volume {v : ℝ | v ∈ Set.Ico (0 : ℝ) 1 ∧ 1 / 2 < (specIsotropicDir 0 v).2.2} =
      ENNReal.ofReal (1 / 4) ∧
    ENNReal.ofReal ((1 : ℝ) / 3) ≠ ENNReal.ofReal ((1 : ℝ) / 4) := by
  have hpi := Real.pi_pos
  refine ⟨?_, ?_, ?_⟩
  · have hset : {v : ℝ | v ∈ Set.Ico (0 : ℝ) 1 ∧ 1 / 2 < (sampleDir 0 v).2.2} =
        Set.Ico (0 : ℝ) (1 / 3) := by
      ext x
      simp only [Set.mem_setOf_eq, Set.mem_Ico, sampleDir, decayDir]
      constructor
      · rintro ⟨⟨h0, h1⟩, hc⟩
        refine ⟨h0, ?_⟩
        by_contra hge
        push_neg at hge
        have hmem1 : x * Real.pi ∈ Set.Icc 0 Real.pi :=
          ⟨mul_nonneg h0 hpi.le, by nlinarith⟩
        have hmem2 : Real.pi / 3 ∈ Set.Icc (0 : ℝ) Real.pi :=
          ⟨by linarith, by linarith⟩
        have hle : Real.pi / 3 ≤ x * Real.pi := by nlinarith
        have hmono := Real.strictAntiOn_cos.antitoneOn hmem2 hmem1 hle
        rw [Real.cos_pi_div_three] at hmono
        linarith
      · rintro ⟨h0, h13⟩
        have h1 : x < 1 := by linarith
        refine ⟨⟨h0, h1⟩, ?_⟩
        have hmem1 : x * Real.pi ∈ Set.Icc 0 Real.pi :=
          ⟨mul_nonneg h0 hpi.le, by nlinarith⟩
        have hmem2 : Real.pi / 3 ∈ Set.Icc (0 : ℝ) Real.pi :=
          ⟨by linarith, by linarith⟩
        have hlt : x * Real.pi < Real.pi / 3 := by nlinarith
        have hmono := Real.strictAntiOn_cos hmem1 hmem2 hlt
        rw [Real.cos_pi_div_three] at hmono
        linarith
    rw [hset, Real.volume_Ico]
    norm_num
  · have hset : {v : ℝ | v ∈ Set.Ico (0 : ℝ) 1 ∧ 1 / 2 < (specIsotropicDir 0 v).2.2} =
        Set.Ioo (3 / 4 : ℝ) 1 := by
      ext x
      simp only [Set.mem_setOf_eq, Set.mem_Ico, Set.mem_Ioo, specIsotropicDir]
      constructor
      · rintro ⟨⟨h0, h1⟩, hc⟩
        exact ⟨by linarith, h1⟩
      · rintro ⟨h34, h1⟩
        exact ⟨⟨by linarith, h1⟩, by linarith⟩
    rw [hset, Real.volume_Ioo]
    norm_num
  · intro h
    rw [ENNReal.ofReal_eq_ofReal_iff (by norm_num) (by norm_num)] at h
    norm_num at h

/-! ### Pair resolver (`resolve_collisions_generic`, physics_engine.py 355-550) -/

/-- Minimum-image shift of one displacement component (`get_pbc_dist`). -/
def pbcShift (d box_size : ℝ) : ℝ :=
  if d > box_size * 0.5 then d - box_size
  else if d < -(box_size * 0.5) then d + box_size
  else d

/-- `get_pbc_dist`: minimum-image displacement components and squared
distance. -/
def get_pbc_dist (p_i p_j : V3) (box_size : ℝ) : ℝ × ℝ × ℝ × ℝ :=
  let dx := pbcShift (p_i.1 - p_j.1) box_size
  let dy := pbcShift (p_i.2.1 - p_j.2.1) box_size
  let dz := pbcShift (p_i.2.2 - p_j.2.2) box_size
  (dx, dy, dz, dx * dx + dy * dy + dz * dz)

/-- Apply the impulse `±impulse·n̂` to the pair: the six component updates
`vel[i] += impulse*n; vel[j] -= impulse*n` shared by the reactive and
elastic branches. -/
def impulseApply (vi vj nrm : V3) (impulse : ℝ) : V3 × V3 :=
  ((vi.1 + impulse * nrm.1, vi.2.1 + impulse * nrm.2.1, vi.2.2 + impulse * nrm.2.2),
   (vj.1 - impulse * nrm.1, vj.2.1 - impulse * nrm.2.1, vj.2.2 - impulse * nrm.2.2))

/-- Reactive velocity update (physics_engine.py lines 505-531):
`vn_new² = vn² + 4·Q/m` clamped at zero, separating root, impulse
`(vn_new − vn)·0.5`. -/
def reactiveUpdate (vi vj nrm : V3) (vn q_val mass : ℝ) : V3 × V3 :=
  let vn_new_sq := vn * vn + 4 * q_val / mass
  let vn_new_sq := if vn_new_sq < 0 then 0 else vn_new_sq
  let vn_new := Real.sqrt vn_new_sq
  impulseApply vi vj nrm ((vn_new - vn) * 0.5)

/-- Elastic velocity update (physics_engine.py lines 533-546): impulse
`-vn` reverses the normal relative velocity. -/
def elasticUpdate (vi vj nrm : V3) (vn : ℝ) : V3 × V3 :=
  impulseApply vi vj nrm (-vn)

/-- The reaction-matching loop (physics_engine.py lines 439-456): collect,
in table order, the index and Boltzmann weight
`exp(−Ea_f/(k_B·max(T,1)))` of every row whose reactant pair matches
`{type_i, type_j}` (order-insensitive) and whose `E_f ≤ E_coll`. -/
def matchedAux (type_i type_j : ℤ) (e_coll boltzmann_k temperature : ℝ) :
    List Rxn2 → ℕ → List (ℕ × ℝ)
  | [], _ => []
  | r :: rest, idx =>
    if ((type_i = r.r0 ∧ type_j = r.r1) ∨ (type_i = r.r1 ∧ type_j = r.r0)) ∧
        r.eaF ≤ e_coll then
      (idx, Real.exp (-r.eaF / (boltzmann_k * max temperature 1))) ::
        matchedAux type_i type_j e_coll boltzmann_k temperature rest (idx + 1)
    else matchedAux type_i type_j e_coll boltzmann_k temperature rest (idx + 1)

/-- The matched-reaction list for a colliding pair. -/
def matchedPairs (rs : List Rxn2) (type_i type_j : ℤ)
    (e_coll boltzmann_k temperature : ℝ) : List (ℕ × ℝ) :=
  matchedAux type_i type_j e_coll boltzmann_k temperature rs 0

/-- The cumulative-sum scan of the weighted selection (physics_engine.py
lines 466-473): the first position whose running total exceeds `x`. -/
def pickScan : List ℝ → ℝ → Option ℕ
  | [], _ => none
  | w :: ws, x => if x < w then some 0 else (pickScan ws (x - w)).map (fun m => m + 1)

/-- Selected position in the matched list: the scan result, defaulting to
position 0 (`selected_r = matched_indices[0]`) when the scan falls through. -/
def pickIdx (ws : List ℝ) (x : ℝ) : ℕ := (pickScan ws x).getD 0

/-- The approach-resolution body (physics_engine.py lines 428-546): if any
reaction matched, select one by weighted sampling on `u·total_weight`, set
the product types and apply the reactive impulse with
`Q = Ea_rev − Ea_fwd`; otherwise bounce elastically. -/
def resolveApproach (vi vj nrm : V3) (vn : ℝ) (type_i type_j : ℤ) (rs : List Rxn2)
    (e_coll boltzmann_k temperature mass u : ℝ) : V3 × V3 × ℤ × ℤ :=
  let ms := matchedPairs rs type_i type_j e_coll boltzmann_k temperature
  if ms.length ≠ 0 then
    let ws := ms.map Prod.snd
    let total_weight := ws.sum
    let rand_val := u * total_weight
    let selected_r := (ms.getD (pickIdx ws rand_val) (0, 0)).1
    let row := rs.getD selected_r ⟨0, 0, 0, 0, 0, 0⟩
    let q_val := row.eaR - row.eaF
    let rv := reactiveUpdate vi vj nrm vn q_val mass
    (rv.1, rv.2, row.p0, row.p1)
  else
    let ev := elasticUpdate vi vj nrm vn
    (ev.1, ev.2, type_i, type_j)

/-- The mutable state threaded through the collision pass. -/
structure CState where
  vel : List V3
  types : List ℤ
  rk : ℕ

/-- The per-pair body of `resolve_collisions_generic` for `i < j`: type
guards, contact test against `ε = 10⁻⁹ < d² < (r_i+r_j)²`, approach test
`v_n < 0`, then reactive or elastic resolution (one random draw is consumed
exactly when some reaction matched). -/
def resolvePairGeneric (pos : List V3) (radii : List ℝ) (rs : List Rxn2)
    (box_size boltzmann_k temperature mass : ℝ) (rng : ℕ → ℝ)
    (st : CState) (i j : ℕ) : CState :=
  let type_i := st.types.getD i 0
  let type_j := st.types.getD j 0
  let max_type : ℤ := (radii.length : ℤ) - 1
  if type_i < 0 ∨ type_j < 0 ∨ type_i > max_type ∨ type_j > max_type then st
  else
    let r_i := radii.getD type_i.toNat 0
    let r_j := radii.getD type_j.toNat 0
    let collision_dist := r_i + r_j
    let dd := get_pbc_dist (pos.getD i v0) (pos.getD j v0) box_size
    let dist_sq := dd.2.2.2
    if dist_sq < collision_dist * collision_dist ∧ dist_sq > 1e-9 then
      let dist := Real.sqrt dist_sq
      let vi := st.vel.getD i v0
      let vj := st.vel.getD j v0
      let nrm : V3 := (dd.1 / dist, dd.2.1 / dist, dd.2.2.1 / dist)
      let vn := (vi.1 - vj.1) * nrm.1 + (vi.2.1 - vj.2.1) * nrm.2.1 +
        (vi.2.2 - vj.2.2) * nrm.2.2
      if vn < 0 then
        let e_coll := 0.5 * (mass / 2) * (vn * vn)
        let ms := matchedPairs rs type_i type_j e_coll boltzmann_k temperature
        let u := rng st.rk
        let res := resolveApproach vi vj nrm vn type_i type_j rs
          e_coll boltzmann_k temperature mass u
        { vel := (st.vel.set i res.1).set j res.2.1,
          types := (st.types.set i res.2.2.1).set j res.2.2.2,
          rk := if ms.length ≠ 0 then st.rk + 1 else st.rk }
      else st
    else st

/-! ### Cell list and full collision traversal -/

/-- Python `int()` float truncation (toward zero). -/
def rtrunc (x : ℝ) : ℤ := if 0 ≤ x then ⌊x⌋ else -⌊-x⌋

/-- Clamp an integer cell coordinate into `[0, M-1]` as in `build_cell_list`. -/
def clampCell (c : ℤ) (M : ℕ) : ℕ := (max 0 (min ((M : ℤ) - 1) c)).toNat

/-- `build_cell_list` (physics_engine.py lines 217-262): arrays `head`
(size `M³`) and `next` (size `n`) initialized to `-1`; every active slot is
prepended to its cell's linked list. -/
def build_cell_list (pos : List V3) (n : ℕ) (box_size : ℝ) (cell_divisions : ℕ)
    (types : List ℤ) : List ℤ × List ℤ :=
  let cell_size := box_size / (cell_divisions : ℝ)
  (List.range n).foldl
    (fun hn i =>
      if types.getD i (-1) < 0 then hn
      else
        let p := pos.getD i v0
        let cx := clampCell (rtrunc (p.1 / cell_size)) cell_divisions
        let cy := clampCell (rtrunc (p.2.1 / cell_size)) cell_divisions
        let cz := clampCell (rtrunc (p.2.2 / cell_size)) cell_divisions
        let cell_idx := cx + cy * cell_divisions + cz * cell_divisions * cell_divisions
        (hn.1.set cell_idx (i : ℤ), hn.2.set i (hn.1.getD cell_idx (-1))))
    (List.replicate (cell_divisions ^ 3) (-1 : ℤ), List.replicate n (-1 : ℤ))

/-- Walk a cell's linked list from `head` through `next`, with fuel
bounding the chain length. -/
def cellChain (next : List ℤ) : ℤ → ℕ → List ℕ
  | _, 0 => []
  | start, fuel + 1 =>
    if start < 0 then []
    else start.toNat :: cellChain next (next.getD start.toNat (-1)) fuel

/-- The 27 neighbor offsets in loop order (`ox` outermost). -/
def neighborOffsets : List (ℤ × ℤ × ℤ) :=
  ([-1, 0, 1] : List ℤ).bind fun ox =>
    ([-1, 0, 1] : List ℤ).bind fun oy =>
      ([-1, 0, 1] : List ℤ).map fun oz => (ox, oy, oz)

/-- `resolve_collisions_generic`: for every cell, every occupant `i`, every
neighbor cell (periodic wrap on indices) and every occupant `j` with
`i < j`, run the per-pair resolution. -/
def resolve_collisions_generic (pos : List V3) (head next : List ℤ)
    (cell_divisions : ℕ) (rs : List Rxn2) (radii : List ℝ)
    (box_size boltzmann_k temperature mass : ℝ) (rng : ℕ → ℝ)
    (st : CState) : CState :=
  let M := cell_divisions
  (List.range (M * M * M)).foldl
    (fun st cell_idx =>
      let cx := cell_idx % M
      let cy := (cell_idx / M) % M
      let cz := cell_idx / (M * M)
      (cellChain next (head.getD cell_idx (-1)) next.length).foldl
        (fun st i =>
          neighborOffsets.foldl
            (fun st o =>
              let ncx := (((cx : ℤ) + o.1 + M) % (M : ℤ)).toNat
              let ncy := (((cy : ℤ) + o.2.1 + M) % (M : ℤ)).toNat
              let ncz := (((cz : ℤ) + o.2.2 + M) % (M : ℤ)).toNat
              let n_cell_idx := ncx + ncy * M + ncz * M * M
              (cellChain next (head.getD n_cell_idx (-1)) next.length).foldl
                (fun st j =>
                  if i < j then
                    resolvePairGeneric pos radii rs box_size boltzmann_k
                      temperature mass rng st i j
                  else st)
                st)
            st)
        st)
    st

/-- `PhysicsEngineAdapter.update` (server.py lines 132-219): early return
(still advancing `sim_time`) when the cached active count is zero;
otherwise thermostat → drift → cell list → two-body collisions (if any
rows) → one-body decays (if any rows) → active-count refresh → advance
`sim_time` by `dt`. -/
def EngineState.update (s : EngineState) (rng : ℕ → ℝ) : EngineState :=
  if s.activeCount = 0 then { s with simTime := s.simTime + s.dt }
  else
    let vel1 := apply_thermostat_numba s.vel s.types s.temperature s.mass
      s.boltzmann_k s.useThermostat
    let pos1 := update_positions_numba s.pos vel1 s.dt s.boxSize
    let hn := build_cell_list pos1 s.types.length s.boxSize s.cellDivs s.types
    let c0 : CState := { vel := vel1, types := s.types, rk := s.rk }
    let c1 := if s.reactions2.length ≠ 0 then
        resolve_collisions_generic pos1 hn.1 hn.2 s.cellDivs s.reactions2 s.radii
          s.boxSize s.boltzmann_k s.temperature s.mass rng c0
      else c0
    let d1 : DState := { types := c1.types, pos := pos1, vel := c1.vel, rk := c1.rk }
    let d2 := if s.reactions1.length ≠ 0 then
        process_1body_reactions rng s.reactions1 s.temperature s.boltzmann_k
          s.dt s.boxSize s.mass d1
      else d1
    let ac := if s.reactions2.length ≠ 0 ∨ s.reactions1.length ≠ 0 then
        countActive d2.types
      else s.activeCount
    { s with pos := d2.pos, vel := d2.vel, types := d2.types, rk := d2.rk,
             activeCount := ac, simTime := s.simTime + s.dt }

/-! ### C6/C7 — impulse kernel algebra -/

theorem impulseApply_sum (vi vj nrm : V3) (c : ℝ) :
    vadd3 (impulseApply vi vj nrm c).1 (impulseApply vi vj nrm c).2 = vadd3 vi vj := by
  dsimp only [impulseApply, vadd3]
  refine congrArg₂ Prod.mk (by ring) (congrArg₂ Prod.mk (by ring) (by ring))

theorem impulseApply_rel_dot (vi vj nrm : V3) (c : ℝ) :
    dot3 (vsub3 (impulseApply vi vj nrm c).1 (impulseApply vi vj nrm c).2) nrm =
      dot3 (vsub3 vi vj) nrm + 2 * c * dot3 nrm nrm := by
  dsimp only [impulseApply, dot3, vsub3]
  ring

theorem impulseApply_ke (vi vj nrm : V3) (c : ℝ) :
    dot3 (impulseApply vi vj nrm c).1 (impulseApply vi vj nrm c).1 +
      dot3 (impulseApply vi vj nrm c).2 (impulseApply vi vj nrm c).2 =
      dot3 vi vi + dot3 vj vj + 2 * c * dot3 (vsub3 vi vj) nrm +
        2 * c * c * dot3 nrm nrm := by
  dsimp only [impulseApply, dot3, vsub3]
  ring

theorem impulseApply_tang (vi vj nrm t : V3) (c : ℝ) :
    dot3 (impulseApply vi vj nrm c).1 t = dot3 vi t + c * dot3 nrm t ∧
    dot3 (impulseApply vi vj nrm c).2 t = dot3 vj t - c * dot3 nrm t := by
  constructor <;> (dsimp only [impulseApply, dot3]; ring)

/-- C6: for the reactive impulse with unit normal `n̂`,
`vn = (v_i − v_j)·n̂` and no clamping (`vn² + 4Q/m ≥ 0`): the new normal
relative speed is the separating positive root of `vn'² = vn² + 4Q/m`, the
pair's kinetic energy changes by exactly `Q`, and every tangential
component is unchanged. -/
theorem C6_reactive_impulse_energy (vi vj nrm : V3) (q_val mass vn : ℝ) (R : V3 × V3)
    (hm : 0 < mass) (hn : dot3 nrm nrm = 1)
    (hvn : vn = dot3 (vsub3 vi vj) nrm)
    (hE : 0 ≤ vn * vn + 4 * q_val / mass)
    (hR : R = reactiveUpdate vi vj nrm vn q_val mass) :
    dot3 (vsub3 R.1 R.2) nrm = Real.sqrt (vn * vn + 4 * q_val / mass) ∧
    dot3 (vsub3 R.1 R.2) nrm * dot3 (vsub3 R.1 R.2) nrm = vn * vn + 4 * q_val / mass ∧
    0 ≤ dot3 (vsub3 R.1 R.2) nrm ∧
    mass / 2 * (dot3 R.1 R.1 + dot3 R.2 R.2) -
      mass / 2 * (dot3 vi vi + dot3 vj vj) = q_val ∧
    (∀ t : V3, dot3 t nrm = 0 → dot3 R.1 t = dot3 vi t ∧ dot3 R.2 t = dot3 vj t) := by
  have hclamp : reactiveUpdate vi vj nrm vn q_val mass =
      impulseApply vi vj nrm ((Real.sqrt (vn * vn + 4 * q_val / mass) - vn) * 0.5) := by
    simp only [reactiveUpdate, if_neg (not_lt.mpr hE)]
  subst hR
  rw [hclamp]
  set s := Real.sqrt (vn * vn + 4 * q_val / mass) with hsdef
  have hs2 : s * s = vn * vn + 4 * q_val / mass := Real.mul_self_sqrt hE
  have hs0 : 0 ≤ s := Real.sqrt_nonneg _
  have hA : dot3 (vsub3 (impulseApply vi vj nrm ((s - vn) * 0.5)).1
      (impulseApply vi vj nrm ((s - vn) * 0.5)).2) nrm = s := by
    rw [impulseApply_rel_dot, hn, ← hvn]
    ring
  refine ⟨hA, ?_, ?_, ?_, ?_⟩
  · rw [hA]
    exact hs2
  · rw [hA]
    exact hs0
  · rw [impulseApply_ke, hn, ← hvn]
    have h4 : mass * (s * s) = mass * (vn * vn) + 4 * q_val := by
      rw [hs2]
      field_simp
      ring
    linear_combination (1 / 4) * h4
  · intro t ht
    have hsym : dot3 nrm t = 0 := by
      have : dot3 nrm t = dot3 t nrm := by dsimp only [dot3]; ring
      rw [this, ht]
    constructor
    · rw [(impulseApply_tang vi vj nrm t ((s - vn) * 0.5)).1, hsym]
      ring
    · rw [(impulseApply_tang vi vj nrm t ((s - vn) * 0.5)).2, hsym]
      ring

/-- Concrete inputs for the C6 witness: a head-on pair along `z`. -/
def c6vi : V3 := ((0 : ℝ), (0 : ℝ), (-1 : ℝ))

def c6vj : V3 := ((0 : ℝ), (0 : ℝ), (1 : ℝ))

def c6n : V3 := ((0 : ℝ), (0 : ℝ), (1 : ℝ))

/-- Witness for C6: the head-on pair with `Q = 0`, `m = 1`, `vn = -2`. -/
theorem C6_reactive_impulse_energy_witness :
    (0 : ℝ) < 1 ∧ dot3 c6n c6n = 1 ∧
    (-2 : ℝ) = dot3 (vsub3 c6vi c6vj) c6n ∧
    (0 : ℝ) ≤ (-2) * (-2) + 4 * 0 / 1 ∧
    (dot3 (vsub3 (reactiveUpdate c6vi c6vj c6n (-2) 0 1).1
        (reactiveUpdate c6vi c6vj c6n (-2) 0 1).2) c6n =
      Real.sqrt ((-2) * (-2) + 4 * 0 / 1) ∧
     dot3 (vsub3 (reactiveUpdate c6vi c6vj c6n (-2) 0 1).1
        (reactiveUpdate c6vi c6vj c6n (-2) 0 1).2) c6n *
       dot3 (vsub3 (reactiveUpdate c6vi c6vj c6n (-2) 0 1).1
        (reactiveUpdate c6vi c6vj c6n (-2) 0 1).2) c6n = (-2) * (-2) + 4 * 0 / 1 ∧
     0 ≤ dot3 (vsub3 (reactiveUpdate c6vi c6vj c6n (-2) 0 1).1
        (reactiveUpdate c6vi c6vj c6n (-2) 0 1).2) c6n ∧
     (1 : ℝ) / 2 * (dot3 (reactiveUpdate c6vi c6vj c6n (-2) 0 1).1
          (reactiveUpdate c6vi c6vj c6n (-2) 0 1).1 +
        dot3 (reactiveUpdate c6vi c6vj c6n (-2) 0 1).2
          (reactiveUpdate c6vi c6vj c6n (-2) 0 1).2) -
       1 / 2 * (dot3 c6vi c6vi + dot3 c6vj c6vj) = 0 ∧
     (∀ t : V3, dot3 t c6n = 0 →
        dot3 (reactiveUpdate c6vi c6vj c6n (-2) 0 1).1 t = dot3 c6vi t ∧
        dot3 (reactiveUpdate c6vi c6vj c6n (-2) 0 1).2 t = dot3 c6vj t)) := by
  have hn : dot3 c6n c6n = 1 := by dsimp only [dot3, c6n]; norm_num
  have hvn : (-2 : ℝ) = dot3 (vsub3 c6vi c6vj) c6n := by
    dsimp only [dot3, vsub3, c6vi, c6vj, c6n]; norm_num
  exact ⟨by norm_num, hn, hvn, by norm_num,
    C6_reactive_impulse_energy c6vi c6vj c6n 0 1 (-2) _
      (by norm_num) hn hvn (by norm_num) rfl⟩

/-- C7: in both the reactive and the elastic branch of the pair resolver,
the sum of the two velocities is exactly preserved (equal masses,
equal-magnitude opposite impulses along `n̂`). -/
theorem C7_pair_momentum_conserved (vi vj nrm : V3) (vn : ℝ) (type_i type_j : ℤ)
    (rs : List Rxn2) (e_coll boltzmann_k temperature mass u : ℝ) :
    vadd3
      (resolveApproach vi vj nrm vn type_i type_j rs e_coll boltzmann_k temperature mass u).1
      (resolveApproach vi vj nrm vn type_i type_j rs e_coll boltzmann_k temperature mass u).2.1 =
    vadd3 vi vj := by
  have hreact : ∀ q_val : ℝ, vadd3 (reactiveUpdate vi vj nrm vn q_val mass).1
      (reactiveUpdate vi vj nrm vn q_val mass).2 = vadd3 vi vj := by
    intro q_val
    simp only [reactiveUpdate]
    exact impulseApply_sum vi vj nrm _
  have helas : vadd3 (elasticUpdate vi vj nrm vn).1 (elasticUpdate vi vj nrm vn).2 =
      vadd3 vi vj := by
    simp only [elasticUpdate]
    exact impulseApply_sum vi vj nrm _
  simp only [resolveApproach]
  split_ifs with h
  · dsimp only
    exact hreact _
  · dsimp only
    exact helas

/-! ### C8 — weighted reaction selection -/

theorem sum_take_nonneg (ws : List ℝ) (h : ∀ w ∈ ws, 0 < w) (k : ℕ) :
    0 ≤ (ws.take k).sum :=
  List.sum_nonneg fun a ha => (h a (List.take_subset k ws ha)).le

theorem sum_take_le (ws : List ℝ) (h : ∀ w ∈ ws, 0 < w) (k : ℕ) :
    (ws.take k).sum ≤ ws.sum := by
  conv_rhs => rw [← List.take_append_drop k ws]
  rw [List.sum_append]
  have hd : 0 ≤ (ws.drop k).sum :=
    List.sum_nonneg fun a ha => (h a (List.drop_subset k ws ha)).le
  linarith

theorem pickScan_some_iff (ws : List ℝ) (h : ∀ w ∈ ws, 0 < w) :
    ∀ x : ℝ, 0 ≤ x → ∀ m : ℕ,
      (pickScan ws x = some m ↔ (ws.take m).sum ≤ x ∧ x < (ws.take (m + 1)).sum) := by
  induction ws with
  | nil =>
    intro x hx m
    simp only [pickScan, List.take_nil, List.sum_nil]
    exact iff_of_false (by simp) (by rintro ⟨h1, h2⟩; linarith)
  | cons w t ih =>
    intro x hx m
    have hw : 0 < w := h w (List.mem_cons_self _ _)
    have ht : ∀ a ∈ t, 0 < a := fun a ha => h a (List.mem_cons_of_mem _ ha)
    cases m with
    | zero =>
      simp only [pickScan, List.take_succ_cons, List.take_zero, List.sum_nil,
        List.sum_cons]
      constructor
      · intro hs
        by_cases hxw : x < w
        · exact ⟨hx, by simpa using hxw⟩
        · rw [if_neg hxw] at hs
          simp at hs
      · rintro ⟨h0, h1⟩
        have hxw : x < w := by simpa using h1
        simp [hxw]
    | succ m =>
      by_cases hxw : x < w
      · have hleft : pickScan (w :: t) x = some 0 := by simp [pickScan, hxw]
        rw [hleft]
        refine iff_of_false (by simp) ?_
        rintro ⟨h1, h2⟩
        have hnn : 0 ≤ (t.take m).sum := sum_take_nonneg t ht m
        rw [List.take_succ_cons, List.sum_cons] at h1
        linarith
      · have hge : w ≤ x := not_lt.mp hxw
        have hleft : pickScan (w :: t) x = (pickScan t (x - w)).map (fun k => k + 1) := by
          simp [pickScan, hxw]
        rw [hleft]
        have hmap : (pickScan t (x - w)).map (fun k => k + 1) = some (m + 1) ↔
            pickScan t (x - w) = some m := by
          cases hsc : pickScan t (x - w) with
          | none => simp
          | some k => simp [Option.map_some]
        rw [hmap, ih ht (x - w) (by linarith) m]
        rw [List.take_succ_cons, List.sum_cons, List.take_succ_cons, List.sum_cons]
        constructor
        · rintro ⟨h1, h2⟩
          exact ⟨by linarith, by linarith⟩
        · rintro ⟨h1, h2⟩
          exact ⟨by linarith, by linarith⟩

theorem pickScan_none_iff (ws : List ℝ) (h : ∀ w ∈ ws, 0 < w) :
    ∀ x : ℝ, 0 ≤ x → (pickScan ws x = none ↔ ws.sum ≤ x) := by
  induction ws with
  | nil =>
    intro x hx
    simp [pickScan, hx]
  | cons w t ih =>
    intro x hx
    have hw : 0 < w := h w (List.mem_cons_self _ _)
    have ht : ∀ a ∈ t, 0 < a := fun a ha => h a (List.mem_cons_of_mem _ ha)
    by_cases hxw : x < w
    · have hsum : 0 ≤ t.sum := List.sum_nonneg fun a ha => (ht a ha).le
      simp only [pickScan, if_pos hxw, List.sum_cons]
      exact iff_of_false (by simp) (by intro hc; linarith)
    · have hge : w ≤ x := not_lt.mp hxw
      simp only [pickScan, if_neg hxw, List.sum_cons]
      rw [show ∀ o : Option ℕ, (o.map (fun m => m + 1) = none ↔ o = none) from
        fun o => by cases o <;> simp]
      rw [ih ht (x - w) (by linarith)]
      constructor
      · intro hc; linarith
      · intro hc; linarith

theorem sum_take_succ_getD (ws : List ℝ) (m : ℕ) (hm : m < ws.length) :
    (ws.take (m + 1)).sum = (ws.take m).sum + ws.getD m 0 := by
  induction ws generalizing m with
  | nil => simp at hm
  | cons w t ih =>
    cases m with
    | zero => simp [List.take_succ_cons, List.getD]
    | succ m =>
      rw [List.take_succ_cons, List.take_succ_cons, List.sum_cons, List.sum_cons,
        ih m (by simpa using hm)]
      simp [List.getD]
      ring

/-- The probability, over a uniform draw `u ∈ [0, 1)`, that the
cumulative-sum scan on `u · Σw` lands at position `m` is exactly
`w_m / Σw`, for any list of positive weights. -/
theorem pick_uniform_measure (ws : List ℝ) (hw : ∀ w ∈ ws, 0 < w) (m : ℕ)
    (hm : m < ws.length) :
    volume {u : ℝ | u ∈ Set.Ico (0 : ℝ) 1 ∧ pickIdx ws (u * ws.sum) = m} =
      ENNReal.ofReal (ws.getD m 0 / ws.sum) := by
  have hne : ws ≠ [] := by
    intro h
    rw [h] at hm
    simp at hm
  have htot : 0 < ws.sum := List.sum_pos ws hw hne
  have hset : {u : ℝ | u ∈ Set.Ico (0 : ℝ) 1 ∧ pickIdx ws (u * ws.sum) = m} =
      Set.Ico ((ws.take m).sum / ws.sum) ((ws.take (m + 1)).sum / ws.sum) := by
    ext x
    simp only [Set.mem_setOf_eq, Set.mem_Ico]
    constructor
    · rintro ⟨⟨h0, h1⟩, hp⟩
      have hx0 : 0 ≤ x * ws.sum := mul_nonneg h0 htot.le
      have hxlt : x * ws.sum < ws.sum := by nlinarith
      have hsome : pickScan ws (x * ws.sum) = some m := by
        rcases hcase : pickScan ws (x * ws.sum) with _ | k
        · exfalso
          have := (pickScan_none_iff ws hw _ hx0).mp hcase
          linarith
        · unfold pickIdx at hp
          rw [hcase] at hp
          simp at hp
          rw [hp]
      have hiv := (pickScan_some_iff ws hw _ hx0 m).mp hsome
      constructor
      · rw [div_le_iff htot]
        exact hiv.1
      · rw [lt_div_iff htot]
        exact hiv.2
    · rintro ⟨ha, hb⟩
      have h0 : 0 ≤ x :=
        le_trans (div_nonneg (sum_take_nonneg ws hw m) htot.le) ha
      have h1 : x < 1 :=
        lt_of_lt_of_le hb (by rw [div_le_one htot]; exact sum_take_le ws hw (m + 1))
      have hx0 : 0 ≤ x * ws.sum := mul_nonneg h0 htot.le
      have hsome : pickScan ws (x * ws.sum) = some m := by
        rw [pickScan_some_iff ws hw _ hx0 m]
        constructor
        · rwa [div_le_iff htot] at ha
        · rwa [lt_div_iff htot] at hb
      refine ⟨⟨h0, h1⟩, ?_⟩
      unfold pickIdx
      rw [hsome]
      rfl
  rw [hset, Real.volume_Ico]
  congr 1
  rw [sum_take_succ_getD ws m hm, div_sub_div_same]
  ring_nf

theorem matchedAux_pos (type_i type_j : ℤ) (e_coll boltzmann_k temperature : ℝ) :
    ∀ (rs : List Rxn2) (idx : ℕ) (p : ℕ × ℝ),
      p ∈ matchedAux type_i type_j e_coll boltzmann_k temperature rs idx → 0 < p.2 := by
  intro rs
  induction rs with
  | nil =>
    intro idx p hp
    simp [matchedAux] at hp
  | cons r rest ih =>
    intro idx p hp
    unfold matchedAux at hp
    by_cases hc : ((type_i = r.r0 ∧ type_j = r.r1) ∨ (type_i = r.r1 ∧ type_j = r.r0)) ∧
        r.eaF ≤ e_coll
    · rw [if_pos hc] at hp
      rcases List.mem_cons.mp hp with rfl | hmem
      · exact Real.exp_pos _
      · exact ih (idx + 1) p hmem
    · rw [if_neg hc] at hp
      exact ih (idx + 1) p hp

/-- C8 (corrected): among the two-body rows matching `{type_i, type_j}`
(order-insensitive) with `E_f ≤ E_c`, the code's scan selects position `m`
of the matched list with probability `w_m / Σw` over the uniform draw,
where `w = exp(−E_f/(k_B·max(T,1)))` — i.e. weighted sampling, not
first-match; and when no row matches, the pair resolves elastically with
types unchanged. -/
theorem C8_weighted_selection :
    (∀ (rs : List Rxn2) (type_i type_j : ℤ) (e_coll boltzmann_k temperature : ℝ) (m : ℕ),
      m < (matchedPairs rs type_i type_j e_coll boltzmann_k temperature).length →
      volume {u : ℝ | u ∈ Set.Ico (0 : ℝ) 1 ∧
          pickIdx
            ((matchedPairs rs type_i type_j e_coll boltzmann_k temperature).map Prod.snd)
            (u * ((matchedPairs rs type_i type_j e_coll boltzmann_k
                temperature).map Prod.snd).sum) = m} =
        ENNReal.ofReal
          (((matchedPairs rs type_i type_j e_coll boltzmann_k
              temperature).map Prod.snd).getD m 0 /
            ((matchedPairs rs type_i type_j e_coll boltzmann_k
              temperature).map Prod.snd).sum)) ∧
    (∀ (vi vj nrm : V3) (vn : ℝ) (type_i type_j : ℤ) (rs : List Rxn2)
        (e_coll boltzmann_k temperature mass u : ℝ),
      matchedPairs rs type_i type_j e_coll boltzmann_k temperature = [] →
      resolveApproach vi vj nrm vn type_i type_j rs e_coll boltzmann_k temperature mass u =
        ((elasticUpdate vi vj nrm vn).1, (elasticUpdate vi vj nrm vn).2,
          type_i, type_j)) := by
  constructor
  · intro rs type_i type_j e_coll boltzmann_k temperature m hm
    apply pick_uniform_measure
    · intro w hwmem
      rcases List.mem_map.mp hwmem with ⟨p, hp, rfl⟩
      exact matchedAux_pos type_i type_j e_coll boltzmann_k temperature rs 0 p hp
    · simpa using hm
  · intro vi vj nrm vn type_i type_j rs e_coll boltzmann_k temperature mass u hms
    simp only [resolveApproach, hms]
    simp

/-- A single matching row `0 + 0 → 1` with `E_f = 0`. -/
def c8row : Rxn2 := ⟨0, 0, 1, -1, 0, 0⟩

/-- Witness for C8 at the one-row table: the single matched row is selected
with probability `w₀/Σw`. -/
theorem C8_weighted_selection_witness :
    0 < (matchedPairs [c8row] 0 0 1 1 1).length ∧
    volume {u : ℝ | u ∈ Set.Ico (0 : ℝ) 1 ∧
        pickIdx ((matchedPairs [c8row] 0 0 1 1 1).map Prod.snd)
          (u * ((matchedPairs [c8row] 0 0 1 1 1).map Prod.snd).sum) = 0} =
      ENNReal.ofReal (((matchedPairs [c8row] 0 0 1 1 1).map Prod.snd).getD 0 0 /
        ((matchedPairs [c8row] 0 0 1 1 1).map Prod.snd).sum) := by
  have hlen : 0 < (matchedPairs [c8row] 0 0 1 1 1).length := by
    norm_num [matchedPairs, matchedAux, c8row]
  exact ⟨hlen, C8_weighted_selection.1 [c8row] 0 0 1 1 1 0 hlen⟩

/-- Competing rows with `E_f = 0` and `E_f = 1` on the same reactant pair. -/
def c8rowA : Rxn2 := ⟨0, 1, 2, 3, 0, 0⟩

def c8rowB : Rxn2 := ⟨0, 1, 2, 3, 1, 0⟩

/-- Counterexample to C8 as stated: at `k_B = 1`, `T = 1/2`, the code's
weights use `max(T, 1) = 1`, so row 0 is selected with probability
`1/(1+e⁻¹)`, whereas weights `exp(−E_f/(k_B·T))` would give
`1/(1+e⁻²)`; the two differ. -/
theorem C8_weight_floor_counter :
    volume {u : ℝ | u ∈ Set.Ico (0 : ℝ) 1 ∧
        pickIdx ((matchedPairs [c8rowA, c8rowB] 0 1 5 1 (1 / 2)).map Prod.snd)
          (u * ((matchedPairs [c8rowA, c8rowB] 0 1 5 1 (1 / 2)).map Prod.snd).sum) = 0} ≠
      ENNReal.ofReal (Real.exp (-(0 : ℝ) / (1 * (1 / 2))) /
        (Real.exp (-(0 : ℝ) / (1 * (1 / 2))) + Real.exp (-(1 : ℝ) / (1 * (1 / 2))))) := by
  have hmax : max ((1 : ℝ) / 2) 1 = 1 := by norm_num
  have hms : matchedPairs [c8rowA, c8rowB] 0 1 5 1 (1 / 2) =
      [(0, (1 : ℝ)), (1, Real.exp (-1))] := by
    simp only [matchedPairs, matchedAux, c8rowA, c8rowB, hmax]
    norm_num [Real.exp_zero]
  have hLHS : volume {u : ℝ | u ∈ Set.Ico (0 : ℝ) 1 ∧
      pickIdx ((matchedPairs [c8rowA, c8rowB] 0 1 5 1 (1 / 2)).map Prod.snd)
        (u * ((matchedPairs [c8rowA, c8rowB] 0 1 5 1 (1 / 2)).map Prod.snd).sum) = 0} =
      ENNReal.ofReal (1 / (1 + Real.exp (-1))) := by
    rw [hms]
    simp only [List.map_cons, List.map_nil]
    rw [pick_uniform_measure [(1 : ℝ), Real.exp (-1)]
      (by
        intro w hw
        simp only [List.mem_cons, List.not_mem_nil, or_false] at hw
        rcases hw with rfl | rfl
        · norm_num
        · exact Real.exp_pos _)
      0 (by norm_num)]
    norm_num [List.getD]
  rw [hLHS]
  have he1 : Real.exp (-(0 : ℝ) / (1 * (1 / 2))) = 1 := by
    norm_num [Real.exp_zero]
  have he2 : Real.exp (-(1 : ℝ) / (1 * (1 / 2))) = Real.exp (-2) := by
    norm_num
  rw [he1, he2]
  intro h
  have hpa : (0 : ℝ) < 1 + Real.exp (-1) := by positivity
  have hpb : (0 : ℝ) < 1 + Real.exp (-2) := by positivity
  rw [ENNReal.ofReal_eq_ofReal_iff (by positivity) (by positivity)] at h
  have hlt : Real.exp (-2) < Real.exp (-1) := Real.exp_lt_exp.mpr (by norm_num)
  have hne : 1 + Real.exp (-1) ≠ 1 + Real.exp (-2) := by linarith
  have := (div_eq_div_iff hpa.ne' hpb.ne').mp h
  simp only [one_mul] at this
  exact hne (by linarith)

/-! ### C3 — a step with no active particles -/

/-- C3 (corrected): when the cached active count is zero, `update` makes no
state change except advancing `sim_time` by `dt` — the early-return branch
executes `self.sim_time += dt` before returning. -/
theorem C3_noop_except_time (s : EngineState) (rng : ℕ → ℝ) (h : s.activeCount = 0) :
    s.update rng = { s with simTime := s.simTime + s.dt } := by
  unfold EngineState.update
  rw [if_pos h]

/-- An engine whose pool is entirely inactive (`activeCount = 0`),
`dt = 1/500`, `sim_time = 0`. -/
def emptyEngine : EngineState :=
  { pos := [v0], vel := [v0], types := [(-1 : ℤ)], simTime := 0, dt := 1 / 500,
    boxSize := 17.5, mass := 1, boltzmann_k := 0.1, temperature := 300,
    useThermostat := true, reactions2 := [], reactions1 := [],
    radii := [0.15, 0.15], cellDivs := 38, activeCount := 0, rk := 0 }

/-- Counterexample to C3 as stated: calling `update` with no active
particles still advances `sim_time` (from `0` to `dt = 1/500`). -/
theorem C3_step_advances_time_counter :
    (emptyEngine.update (fun _ => 0)).simTime ≠ emptyEngine.simTime := by
  unfold EngineState.update
  rw [if_pos (show emptyEngine.activeCount = 0 from rfl)]
  show emptyEngine.simTime + emptyEngine.dt ≠ emptyEngine.simTime
  unfold emptyEngine
  norm_num

/-- Witness for C3 at the concrete all-inactive engine. -/
theorem C3_noop_witness :
    emptyEngine.activeCount = 0 ∧
    emptyEngine.update (fun _ => 0) =
      { emptyEngine with simTime := emptyEngine.simTime + emptyEngine.dt } :=
  ⟨rfl, C3_noop_except_time emptyEngine (fun _ => 0) rfl⟩
